import Mathlib

/-!
# Attendee Matching & Seat Allocation Engine — verification development

Shallow embedding of the engine described by the repository's design
documents (`src/backend/*.md`) and of the frontend seating components
(`src/unnamed/part_000`, `src/unnamed/part_001`,
`src/frontend/src/components/SeatingVisualizer/SeatingVisualizer.tsx`).

The backend implementation files (`backend/app/matcher_runner.py`,
`backend/app/matching_agent.py`, `backend/app/matcher.py`) are not part of
the source tree; only their design/maintenance documentation is.  The
engine definitions below are therefore modelled from the specification
(`spec.md`) and from the code excerpts and API references reproduced in
`MATCHER_RUNNER.md`, `AGENT_SEARCH_LIMIT_FIX.md` and
`EVENT_ID_FILTERING.md`.  The frontend definitions are translated directly
from the TypeScript sources.
-/

namespace Engine

/-- A candidate returned by the Similarity Search Port: attendee id, the
fact/opinion text it was retrieved from, and a similarity score.  Scores and
confidences are modelled as rationals. -/
structure Candidate where
  attendee_id : Int
  source_text : String
  score : Rat
deriving DecidableEq, Repr

/-- Result of one Match Decision Policy invocation: chosen partner id
(`-1` is the sentinel "no match" value), a free-text rationale and a
confidence in `[0,1]`. -/
structure MatchResult where
  attendee_id : Int
  reasoning : String
  confidence : Rat
deriving DecidableEq, Repr

/-- Modelled from the spec: `_should_continue` of the matching agent
(§4.1, §9 of the spec; code excerpts in `AGENT_SEARCH_LIMIT_FIX.md` and
`EVENT_ID_FILTERING.md`, the Python implementation itself is absent from
the tree).  The 3-attempt hard cap is checked first, before any request by
the decision-making component (`wants_more`, the LLM asking to run another
tool) is honored; the loop stops as soon as the accumulated candidate pool
is non-empty; otherwise it keeps searching while the attempt budget
remains. -/
def should_continue (search_attempts : Nat) (candidates : List Candidate)
    (wants_more : Bool) : Bool :=
  if 3 ≤ search_attempts then false
  else if !candidates.isEmpty then false
  else wants_more || decide (search_attempts < 3)

/-- Modelled from the spec: the bounded retry loop of the Match Decision
Policy (spec §4.1).  `env k` is the candidate list returned by the `k`-th
search attempt (a query-execution fault is a zero-candidate attempt, so
`env k = []` also covers faults); `wants k` is whether the external
decision-making component asks for a further query after `k` attempts.
Candidates from all attempts are pooled.  The `fuel` argument makes the
recursion structural; the attempt cap is enforced by `should_continue`,
not by the fuel (see `policy_attempts_le_three`). -/
def policyLoop (env : Nat → List Candidate) (wants : Nat → Bool) :
    Nat → Nat → List Candidate → Nat × List Candidate
  | 0, attempts, pool => (attempts, pool)
  | fuel + 1, attempts, pool =>
    if should_continue attempts pool (wants attempts) then
      policyLoop env wants fuel (attempts + 1) (pool ++ env attempts)
    else (attempts, pool)

/-- Modelled from the spec: one full retry phase, started with zero
attempts and an empty pool.  Fuel `4` exceeds the attempt cap, so the loop
is always ended by `should_continue`, never by fuel exhaustion. -/
def policyRun (env : Nat → List Candidate) (wants : Nat → Bool) :
    Nat × List Candidate :=
  policyLoop env wants 4 0 []

/-- Modelled from the spec: select the top-scored candidate not in the
exclusion set (spec §4.1 finalization; tie-break: the earliest-listed of
the top-scored candidates, a deterministic rule as §9 asks for). -/
def selectBest (exclude : List Int) (pool : List Candidate) : Option Candidate :=
  (pool.filter (fun c => decide (c.attendee_id ∉ exclude))).foldl
    (fun best c =>
      match best with
      | none => some c
      | some b => if b.score < c.score then some c else some b)
    none

/-- Clamp a score into `[0,1]` (the spec's monotonic score-to-confidence
mapping). -/
def clamp01 (q : Rat) : Rat := min 1 (max 0 q)

/-- Modelled from the spec: `_finalize_node` (spec §4.1 finalization; the
no-candidate branch is reproduced verbatim in `EVENT_ID_FILTERING.md`):
with a non-empty usable pool, emit the best candidate's id with a
rationale and a clamped confidence; with no usable candidate, emit the
sentinel `-1` with confidence `0` and the exhausted-search rationale. -/
def finalize (exclude : List Int) (pool : List Candidate) : MatchResult :=
  match selectBest exclude pool with
  | some c =>
    { attendee_id := c.attendee_id
      reasoning := "Matched via: " ++ c.source_text
      confidence := clamp01 c.score }
  | none =>
    { attendee_id := -1
      reasoning := "No suitable matches found after 3 search attempts"
      confidence := 0 }

/-- Modelled from the spec: `find_match`, one complete Match Decision
Policy invocation — run the bounded retry loop, then finalize against the
exclusion set. -/
def find_match (env : Nat → List Candidate) (wants : Nat → Bool)
    (exclude : List Int) : MatchResult :=
  finalize exclude (policyRun env wants).2

/-- Number of search attempts actually issued by one invocation. -/
def attemptsUsed (env : Nat → List Candidate) (wants : Nat → Bool) : Nat :=
  (policyRun env wants).1

/-- Flatten a pair list into the ids it contains, pair members adjacent
and pairs in orchestration order (the Seat Allocator's input order). -/
def pairIds (ps : List (Int × Int)) : List Int :=
  ps.flatMap fun p => [p.1, p.2]

/-- Instrumentation record of one Match Decision Policy invocation made by
the orchestrator: the focal attendee, the exclusion set passed, and the
orchestration state at call time (spec §8 asks for exactly this
instrumentation to check the exclusion invariant). -/
structure CallRec where
  focal : Int
  excluded : List Int
  unallocAtCall : List Int
  pairsAtCall : List (Int × Int)
  unmatchedAtCall : List Int
deriving DecidableEq, Repr

/-- State of one orchestration run: the still-unallocated attendees (in
stable order), the finalized pairs, the attendees that finished a round
unmatched (no-match or rejected match), and the log of policy calls. -/
structure OrchState where
  unallocated : List Int
  pairs : List (Int × Int)
  unmatched : List Int
  calls : List CallRec
deriving DecidableEq, Repr

/-- The exclusion set the orchestrator passes to the policy: all attending
ids minus the currently unallocated ones. -/
def excludedOf (allIds : List Int) (s : OrchState) : List Int :=
  allIds.filter fun x => decide (x ∉ s.unallocated)

/-- Modelled from the spec: one iteration of `match_pairs` (spec §4.2; the
walkthrough in `MATCHER_RUNNER.md` §"Key Algorithm", the Python
implementation itself is absent from the tree).  The focal attendee is the
first unallocated one; `excluded = allIds − unallocated` is passed to the
policy; a sentinel `-1` answer unmatches the focal attendee only; an
answer that is not a *different, still-unallocated* attendee is rejected
as a contract violation (a Pair is two distinct ids, spec §3) and the
focal attendee is likewise unmatched; otherwise both ids leave
`unallocated` and the pair is appended. -/
def orchStep (allIds : List Int) (policy : Int → List Int → MatchResult)
    (s : OrchState) : OrchState :=
  match s.unallocated with
  | [] => s
  | focal :: rest =>
    let excluded := excludedOf allIds s
    let r := policy focal excluded
    let logged := s.calls ++ [⟨focal, excluded, s.unallocated, s.pairs, s.unmatched⟩]
    if r.attendee_id = -1 then
      { s with unallocated := rest, unmatched := s.unmatched ++ [focal],
               calls := logged }
    else if r.attendee_id ∈ rest then
      { s with unallocated := rest.erase r.attendee_id,
               pairs := s.pairs ++ [(focal, r.attendee_id)], calls := logged }
    else
      { s with unallocated := rest, unmatched := s.unmatched ++ [focal],
               calls := logged }

/-- Modelled from the spec: the orchestration loop — repeat `orchStep`
until fewer than 2 attendees remain unallocated (spec §4.2).  `fuel` makes
the recursion structural; every step strictly shrinks `unallocated`, so
fuel equal to the attendee count suffices (`orchLoop_unallocated_le_one`). -/
def orchLoop (allIds : List Int) (policy : Int → List Int → MatchResult) :
    Nat → OrchState → OrchState
  | 0, s => s
  | fuel + 1, s =>
    if s.unallocated.length < 2 then s
    else orchLoop allIds policy fuel (orchStep allIds policy s)

/-- Modelled from the spec: `match_pairs` — run the orchestration loop on
all attending attendee ids, starting from an all-unallocated state. -/
def match_pairs (allIds : List Int) (policy : Int → List Int → MatchResult) :
    OrchState :=
  orchLoop allIds policy allIds.length ⟨allIds, [], [], []⟩

/-- The final unallocated remainder of a run: attendees that finished a
round unmatched plus whoever was left when fewer than 2 remained. -/
def remainderOf (s : OrchState) : List Int :=
  s.unmatched ++ s.unallocated

/-- The conservation invariant: pair members, unmatched attendees and
still-unallocated attendees together are a permutation of all attending
ids. -/
def Conserves (allIds : List Int) (s : OrchState) : Prop :=
  (pairIds s.pairs ++ s.unmatched ++ s.unallocated).Perm allIds

/-- Well-formedness of one logged policy call: the exclusion set is
exactly the attending ids not unallocated at call time, the focal attendee
is unallocated at call time, and the call-time state conserves the
attendee set. -/
def CallWf (allIds : List Int) (c : CallRec) : Prop :=
  c.excluded = allIds.filter (fun x => decide (x ∉ c.unallocAtCall))
  ∧ c.focal ∈ c.unallocAtCall
  ∧ (pairIds c.pairsAtCall ++ c.unmatchedAtCall ++ c.unallocAtCall).Perm allIds

/-- The run invariant: conservation plus well-formedness of every logged
call. -/
def RunInv (allIds : List Int) (s : OrchState) : Prop :=
  Conserves allIds s ∧ ∀ c ∈ s.calls, CallWf allIds c

/-- A seat assignment produced by the Seat Allocator; `table_no` and
`seat_no` are zero-based. -/
structure SeatAssignment where
  attendee_id : Int
  table_no : Nat
  seat_no : Nat
deriving DecidableEq, Repr

/-- Modelled from the spec: the sequential placement loop of
`allocate_seats` (spec §4.3; formula `table_no = seat_index //
ppl_per_table`, `seat_no = seat_index % ppl_per_table` per
`MATCHER_RUNNER.md`).  `i` is the running flattened seat index. -/
def assignFrom (ppl_per_table : Nat) : Nat → List Int → List SeatAssignment
  | _, [] => []
  | i, a :: rest =>
    ⟨a, i / ppl_per_table, i % ppl_per_table⟩ ::
      assignFrom ppl_per_table (i + 1) rest

/-- Outcome of one seat-allocation pass: the written assignments, the
identifiers that did not fit, and whether a capacity-overflow warning was
reported.  No exception path exists: allocation always yields this
record. -/
structure SeatResult where
  assignments : List SeatAssignment
  unplaced : List Int
  overflow : Bool
deriving DecidableEq, Repr

/-- Modelled from the spec: `allocate_seats` (spec §4.3, the Python
implementation itself is absent from the tree).  Pairs are flattened in
orchestration order with pair members adjacent, the unpaired remainder is
appended, the first `total_tables * ppl_per_table` attendees are placed by
the div/mod rule, and any attendees beyond capacity are reported as
unplaced with a non-fatal overflow warning. -/
def allocate_seats (pairs : List (Int × Int)) (remainder : List Int)
    (total_tables ppl_per_table : Nat) : SeatResult :=
  let seq := pairIds pairs ++ remainder
  let seats := total_tables * ppl_per_table
  { assignments := assignFrom ppl_per_table 0 (seq.take seats)
    unplaced := seq.drop seats
    overflow := decide (seats < seq.length) }

/-- The structured result of the top-level `run`/`allocate` operation
(field shapes from the API reference in `MATCHER_RUNNER.md`). -/
structure RunResult where
  success : Bool
  error : Option String
  attendees_count : Nat
  pairs_created : Nat
  attendees_seated : Nat
  attendees_unallocated : Nat
deriving DecidableEq, Repr

/-- Modelled from the spec: `MatcherRunner.run` (spec §4.2 validation,
§6 invocation surface, §7 error taxonomy, and the API reference and error
catalogue in `MATCHER_RUNNER.md`; the Python implementation itself is
absent from the tree).  `eventFound` abstracts the event lookup;
`attending` is the list of attendee ids with `going = True`.  The run
fails fast when the event is missing or fewer than 2 attendees attend; it
also reports failure when matching creates no pairs (the "No pairs could
be created" error of `MATCHER_RUNNER.md`); otherwise it pairs, seats and
reports counts. -/
def MatcherRunner_run (eventFound : Bool) (total_tables ppl_per_table : Nat)
    (attending : List Int) (policy : Int → List Int → MatchResult) : RunResult :=
  if !eventFound then
    { success := false, error := some "Event not found"
      attendees_count := 0, pairs_created := 0
      attendees_seated := 0, attendees_unallocated := 0 }
  else if attending.length < 2 then
    { success := false, error := some "Need at least 2 attendees for pairing"
      attendees_count := attending.length, pairs_created := 0
      attendees_seated := 0, attendees_unallocated := 0 }
  else
    let o := match_pairs attending policy
    if o.pairs.length = 0 then
      { success := false, error := some "No pairs could be created"
        attendees_count := attending.length, pairs_created := 0
        attendees_seated := 0, attendees_unallocated := 0 }
    else
      let rem := remainderOf o
      let sr := allocate_seats o.pairs rem total_tables ppl_per_table
      { success := true, error := none
        attendees_count := attending.length
        pairs_created := o.pairs.length
        attendees_seated := sr.assignments.length
        attendees_unallocated := rem.length }

end Engine

namespace Frontend

/-- A mock table as built by `handleGeneratePlan` in `src/unnamed/part_000`
(`App.tsx`): reported id, capacity, and the attendees placed on it.
Attendee objects are opaque here (`α`). -/
structure MockTable (α : Type) where
  id : Nat
  capacity : Nat
  attendees : List α
deriving DecidableEq, Repr

/-- `handleGeneratePlan` of `App.tsx` (`src/unnamed/part_000`, lines
84-112): for each table index `i < numberOfTables` it takes the slice
`finalAttendees.slice(i*tableSize, i*tableSize + tableSize)` (the running
`attendeeIndex` advances by `tableSize` per table), labels the table
`i + 1`, then removes tables with no attendees. -/
def handleGeneratePlan {α : Type} (numberOfTables tableSize : Nat)
    (finalAttendees : List α) : List (MockTable α) :=
  ((List.range numberOfTables).map fun i =>
      MockTable.mk (i + 1) tableSize
        ((finalAttendees.drop (i * tableSize)).take tableSize)).filter
    fun t => !t.attendees.isEmpty

/-- The static topic palette of `SeatingVisualizer.tsx`
(`src/unnamed/part_001`): for each topic index, the hex colors of the `A`
(value 1) and `B` (value 0) extremes, written as numeric `0xRRGGBB`
literals. -/
def TOPIC_COLOR_PALETTE : List (Nat × Nat) :=
  [(0x007bff, 0xdc3545), (0x28a745, 0xffc107), (0x6f42c1, 0xfd7e14),
   (0xe83e8c, 0x17a2b8), (0x6c757d, 0x343a40), (0x40e0d0, 0xf4a460),
   (0x800000, 0x008080), (0x9acd32, 0xb22222), (0x00bfff, 0xff69b4),
   (0x556b2f, 0x8b008b)]

/-- `hexToRgb` of `SeatingVisualizer.tsx`, on the numeric form of a
six-digit hex color: split into the `[r, g, b]` channel values. -/
def hexToRgb (hex : Nat) : Int × Int × Int :=
  (Int.ofNat (hex / 65536 % 256), Int.ofNat (hex / 256 % 256),
   Int.ofNat (hex % 256))

/-- A computed CSS color: an `rgb(r,g,b)` string or the fallback literal
string given as `lightgray`. -/
inductive CssColor where
  | rgb (r g b : Int)
  | lightgray
deriving DecidableEq, Repr

/-- `interpolateColor` of `SeatingVisualizer.tsx`: factor `≤ 0` yields the
first color, factor `≥ 1` the second, otherwise each channel is
`Math.round(c1 + factor * (c2 - c1))` (`Math.round x = ⌊x + 1/2⌋`, which
is Lean's `round`). -/
def interpolateColor (c1 c2 : Int × Int × Int) (factor : Rat) : CssColor :=
  if factor ≤ 0 then CssColor.rgb c1.1 c1.2.1 c1.2.2
  else if 1 ≤ factor then CssColor.rgb c2.1 c2.2.1 c2.2.2
  else
    CssColor.rgb
      (round ((c1.1 : Rat) + factor * ((c2.1 : Rat) - (c1.1 : Rat))))
      (round ((c1.2.1 : Rat) + factor * ((c2.2.1 : Rat) - (c1.2.1 : Rat))))
      (round ((c1.2.2 : Rat) + factor * ((c2.2.2 : Rat) - (c1.2.2 : Rat))))

/-- The settings slice the visualizer reads: the ordered view (topic)
names. -/
structure EventSettings where
  views : List String
deriving DecidableEq, Repr

/-- The attendee slice the visualizer reads: `attendee.opinions.views`, an
array of numeric view values (index-aligned with `settings.views`).  A
missing entry is an out-of-bounds index; `0` is the falsy numeric value. -/
structure Attendee where
  views : List Rat
deriving DecidableEq, Repr

/-- `getDynamicBackgroundColor` of `SeatingVisualizer.tsx` (lines 84-106):
look up the selected view's index in `settings.views`
(`Array.prototype.indexOf`, first occurrence), fetch the palette pair at
that index (`undefined` for `-1` or beyond the palette, giving the
`lightgray` fallback), clamp the view value to `[0,1]` and interpolate
from color `B` (factor 0) to color `A` (factor 1). -/
def getDynamicBackgroundColor (viewValue : Rat) (selectedView : String)
    (settings : EventSettings) : CssColor :=
  match settings.views.findIdx? (fun v => v == selectedView) with
  | none => CssColor.lightgray
  | some viewIndex =>
    match TOPIC_COLOR_PALETTE.get? viewIndex with
    | none => CssColor.lightgray
    | some colors =>
      interpolateColor (hexToRgb colors.2) (hexToRgb colors.1)
        (min 1 (max 0 viewValue))

/-- `getCurrentViewValue` of `SeatingVisualizer.tsx` (lines 113-122):
return the attendee's stored value for the selected view, or the neutral
`0.5` when the view name is not in `settings.views` or the stored entry is
missing or falsy (`0`). -/
def getCurrentViewValue (attendee : Attendee) (selectedView : String)
    (settings : EventSettings) : Rat :=
  match settings.views.findIdx? (fun v => v == selectedView) with
  | none => 0.5
  | some viewIndex =>
    match attendee.views.get? viewIndex with
    | none => 0.5
    | some x => if x = 0 then 0.5 else x

end Frontend

namespace Engine

lemma policyLoop_attempts_le (env : Nat → List Candidate) (wants : Nat → Bool) :
    ∀ (fuel attempts : Nat) (pool : List Candidate), attempts ≤ 3 →
      (policyLoop env wants fuel attempts pool).1 ≤ 3 := by
  intro fuel
  induction fuel with
  | zero => intro attempts pool h; simpa [policyLoop] using h
  | succ fuel ih =>
    intro attempts pool h
    by_cases hc : should_continue attempts pool (wants attempts) = true
    · have hlt : attempts < 3 := by
        by_contra hge
        have : 3 ≤ attempts := by omega
        simp [should_continue, this] at hc
      simp only [policyLoop, hc, if_true]
      exact ih (attempts + 1) (pool ++ env attempts) (by omega)
    · simp only [policyLoop, hc, if_false]
      simpa using h

/-- The retry loop never records more than 3 attempts, for any fuel. -/
lemma policy_attempts_le_three (env : Nat → List Candidate) (wants : Nat → Bool)
    (fuel : Nat) : (policyLoop env wants fuel 0 []).1 ≤ 3 :=
  policyLoop_attempts_le env wants fuel 0 [] (by omega)

/-- Once the pool is non-empty the loop stops immediately. -/
lemma policyLoop_stop_of_pool_ne_nil (env : Nat → List Candidate)
    (wants : Nat → Bool) (fuel attempts : Nat) {pool : List Candidate}
    (h : pool ≠ []) : policyLoop env wants fuel attempts pool = (attempts, pool) := by
  cases fuel with
  | zero => rfl
  | succ fuel =>
    have hne : pool.isEmpty = false := by
      cases pool with
      | nil => exact absurd rfl h
      | cons a l => rfl
    simp [policyLoop, should_continue, hne]

/-- With an empty pool and budget left, the loop issues the next search. -/
lemma policyLoop_step_of_pool_nil (env : Nat → List Candidate)
    (wants : Nat → Bool) (fuel attempts : Nat) (h : attempts < 3) :
    policyLoop env wants (fuel + 1) attempts [] =
      policyLoop env wants fuel (attempts + 1) (env attempts) := by
  have h3 : ¬ 3 ≤ attempts := by omega
  simp [policyLoop, should_continue, h3, h]

lemma pairIds_append (ps : List (Int × Int)) (f m : Int) :
    pairIds (ps ++ [(f, m)]) = pairIds ps ++ [f, m] := by
  simp [pairIds]

lemma perm_unmatch (P U R : List Int) (f : Int) :
    (P ++ (U ++ [f]) ++ R).Perm (P ++ U ++ (f :: R)) := by
  have e : P ++ (U ++ [f]) ++ R = P ++ U ++ (f :: R) := by simp
  exact e ▸ List.Perm.refl _

lemma perm_match (P U R : List Int) (f m : Int) (hm : m ∈ R) :
    ((P ++ [f, m]) ++ U ++ R.erase m).Perm (P ++ U ++ (f :: R)) := by
  have e : (P ++ [f, m]) ++ U ++ R.erase m = P ++ (f :: m :: (U ++ R.erase m)) := by
    simp
  have e2 : P ++ U ++ (f :: R) = P ++ (U ++ (f :: R)) := by simp
  rw [e, e2]
  refine List.Perm.append_left P ?_
  have h1 : (U ++ (f :: (m :: R.erase m))).Perm (f :: (U ++ (m :: R.erase m))) :=
    List.perm_middle
  have h2 : (U ++ (m :: R.erase m)).Perm (m :: (U ++ R.erase m)) := List.perm_middle
  have h3 : (f :: m :: (U ++ R.erase m)).Perm (U ++ (f :: m :: R.erase m)) :=
    (h1.trans (h2.cons f)).symm
  refine h3.trans ?_
  exact List.Perm.append_left U (((List.perm_cons_erase hm).symm).cons f)

lemma orchStep_conserves (allIds : List Int)
    (policy : Int → List Int → MatchResult) (s : OrchState)
    (h : Conserves allIds s) : Conserves allIds (orchStep allIds policy s) := by
  unfold Conserves at *
  unfold orchStep
  cases hu : s.unallocated with
  | nil => simpa using h
  | cons focal rest =>
    rw [hu] at h
    simp only []
    by_cases h1 : (policy focal (excludedOf allIds s)).attendee_id = -1
    · rw [if_pos h1]
      exact List.Perm.trans (perm_unmatch _ _ _ _) h
    · rw [if_neg h1]
      by_cases h2 : (policy focal (excludedOf allIds s)).attendee_id ∈ rest
      · rw [if_pos h2]
        refine List.Perm.trans ?_ h
        simp only [pairIds_append]
        exact perm_match _ _ _ _ _ h2
      · rw [if_neg h2]
        exact List.Perm.trans (perm_unmatch _ _ _ _) h

lemma orchStep_calls (allIds : List Int)
    (policy : Int → List Int → MatchResult) (s : OrchState)
    (h : Conserves allIds s) (hc : ∀ c ∈ s.calls, CallWf allIds c) :
    ∀ c ∈ (orchStep allIds policy s).calls, CallWf allIds c := by
  obtain ⟨ua, ps, um, cs⟩ := s
  cases ua with
  | nil => simpa [orchStep] using hc
  | cons focal rest =>
    have hnew : CallWf allIds
        ⟨focal, excludedOf allIds ⟨focal :: rest, ps, um, cs⟩,
         focal :: rest, ps, um⟩ :=
      ⟨rfl, List.mem_cons_self _ _, h⟩
    intro c hcmem
    unfold orchStep at hcmem
    simp only [] at hcmem
    by_cases h1 :
        (policy focal (excludedOf allIds ⟨focal :: rest, ps, um, cs⟩)).attendee_id
          = -1
    · rw [if_pos h1] at hcmem
      rcases List.mem_append.mp hcmem with hl | hr
      · exact hc c hl
      · rw [List.mem_singleton] at hr; subst hr; exact hnew
    · rw [if_neg h1] at hcmem
      by_cases h2 :
          (policy focal
            (excludedOf allIds ⟨focal :: rest, ps, um, cs⟩)).attendee_id ∈ rest
      · rw [if_pos h2] at hcmem
        rcases List.mem_append.mp hcmem with hl | hr
        · exact hc c hl
        · rw [List.mem_singleton] at hr; subst hr; exact hnew
      · rw [if_neg h2] at hcmem
        rcases List.mem_append.mp hcmem with hl | hr
        · exact hc c hl
        · rw [List.mem_singleton] at hr; subst hr; exact hnew

lemma orchStep_runinv (allIds : List Int)
    (policy : Int → List Int → MatchResult) (s : OrchState)
    (h : RunInv allIds s) : RunInv allIds (orchStep allIds policy s) :=
  ⟨orchStep_conserves allIds policy s h.1, orchStep_calls allIds policy s h.1 h.2⟩

lemma orchLoop_runinv (allIds : List Int)
    (policy : Int → List Int → MatchResult) :
    ∀ (fuel : Nat) (s : OrchState), RunInv allIds s →
      RunInv allIds (orchLoop allIds policy fuel s) := by
  intro fuel
  induction fuel with
  | zero => intro s h; exact h
  | succ fuel ih =>
    intro s h
    unfold orchLoop
    by_cases hlen : s.unallocated.length < 2
    · rw [if_pos hlen]; exact h
    · rw [if_neg hlen]
      exact ih _ (orchStep_runinv allIds policy s h)

lemma orchStep_shrinks (allIds : List Int)
    (policy : Int → List Int → MatchResult) (s : OrchState)
    (h : s.unallocated ≠ []) :
    (orchStep allIds policy s).unallocated.length < s.unallocated.length := by
  unfold orchStep
  cases hu : s.unallocated with
  | nil => exact absurd hu h
  | cons focal rest =>
    simp only []
    by_cases h1 : (policy focal (excludedOf allIds s)).attendee_id = -1
    · rw [if_pos h1]; simp
    · rw [if_neg h1]
      by_cases h2 : (policy focal (excludedOf allIds s)).attendee_id ∈ rest
      · rw [if_pos h2]
        have := List.length_erase_le (policy focal (excludedOf allIds s)).attendee_id rest
        simp only [List.length_cons]
        omega
      · rw [if_neg h2]; simp

lemma orchLoop_unallocated_le_one (allIds : List Int)
    (policy : Int → List Int → MatchResult) :
    ∀ (fuel : Nat) (s : OrchState), s.unallocated.length ≤ fuel →
      (orchLoop allIds policy fuel s).unallocated.length ≤ 1 := by
  intro fuel
  induction fuel with
  | zero =>
    intro s h
    show s.unallocated.length ≤ 1
    omega
  | succ fuel ih =>
    intro s h
    unfold orchLoop
    by_cases hlen : s.unallocated.length < 2
    · rw [if_pos hlen]; omega
    · rw [if_neg hlen]
      refine ih _ ?_
      have hne : s.unallocated ≠ [] := by
        intro hnil
        rw [hnil] at hlen
        simp at hlen
      have := orchStep_shrinks allIds policy s hne
      omega

lemma policyRun_first_nonempty (env : Nat → List Candidate) (wants : Nat → Bool) :
    ∀ k, k < 3 → (∀ j, j < k → env j = []) → env k ≠ [] →
      policyRun env wants = (k + 1, env k) := by
  intro k hk hbefore hne
  match k, hk with
  | 0, _ =>
    rw [policyRun, policyLoop_step_of_pool_nil env wants 3 0 (by omega)]
    exact policyLoop_stop_of_pool_ne_nil env wants 3 1 hne
  | 1, _ =>
    rw [policyRun, policyLoop_step_of_pool_nil env wants 3 0 (by omega),
      hbefore 0 (by omega), policyLoop_step_of_pool_nil env wants 2 1 (by omega)]
    exact policyLoop_stop_of_pool_ne_nil env wants 2 2 hne
  | 2, _ =>
    rw [policyRun, policyLoop_step_of_pool_nil env wants 3 0 (by omega),
      hbefore 0 (by omega), policyLoop_step_of_pool_nil env wants 2 1 (by omega),
      hbefore 1 (by omega), policyLoop_step_of_pool_nil env wants 1 2 (by omega)]
    exact policyLoop_stop_of_pool_ne_nil env wants 1 3 hne

lemma policyRun_all_empty (env : Nat → List Candidate) (wants : Nat → Bool)
    (hempty : ∀ k, env k = []) : policyRun env wants = (3, []) := by
  rw [policyRun, policyLoop_step_of_pool_nil env wants 3 0 (by omega),
    hempty 0, policyLoop_step_of_pool_nil env wants 2 1 (by omega),
    hempty 1, policyLoop_step_of_pool_nil env wants 1 2 (by omega), hempty 2]
  simp [policyLoop, should_continue]

lemma assignFrom_length (ppl_per_table : Nat) :
    ∀ (i : Nat) (xs : List Int),
      (assignFrom ppl_per_table i xs).length = xs.length := by
  intro i xs
  induction xs generalizing i with
  | nil => rfl
  | cons a rest ih => simp [assignFrom, ih]

lemma assignFrom_map_id (ppl_per_table : Nat) :
    ∀ (i : Nat) (xs : List Int),
      (assignFrom ppl_per_table i xs).map SeatAssignment.attendee_id = xs := by
  intro i xs
  induction xs generalizing i with
  | nil => rfl
  | cons a rest ih => simp [assignFrom, ih]

lemma assignFrom_get? (ppl_per_table : Nat) :
    ∀ (xs : List Int) (n j : Nat), j < xs.length →
      (assignFrom ppl_per_table n xs).get? j =
        (xs.get? j).map fun a =>
          ⟨a, (n + j) / ppl_per_table, (n + j) % ppl_per_table⟩ := by
  intro xs
  induction xs with
  | nil => intro n j h; simp at h
  | cons a rest ih =>
    intro n j h
    cases j with
    | zero => simp [assignFrom]
    | succ j =>
      have hj : j < rest.length := by simpa using h
      have := ih (n + 1) j hj
      simp only [assignFrom, List.get?_cons_succ]
      rw [this]
      have harith : n + 1 + j = n + (j + 1) := by omega
      rw [harith]

lemma match_pairs_runinv (allIds : List Int)
    (policy : Int → List Int → MatchResult) :
    RunInv allIds (match_pairs allIds policy) := by
  refine orchLoop_runinv allIds policy allIds.length ⟨allIds, [], [], []⟩ ⟨?_, ?_⟩
  · show (pairIds [] ++ [] ++ allIds).Perm allIds
    simp [pairIds]
  · intro c hc
    simp at hc

lemma orchStep_of_unalloc_cons (allIds : List Int)
    (policy : Int → List Int → MatchResult) {s : OrchState} {focal : Int}
    {rest : List Int} (hu : s.unallocated = focal :: rest) :
    orchStep allIds policy s =
      (if (policy focal (excludedOf allIds s)).attendee_id = -1 then
        { s with unallocated := rest, unmatched := s.unmatched ++ [focal],
                 calls := s.calls ++ [⟨focal, excludedOf allIds s,
                   s.unallocated, s.pairs, s.unmatched⟩] }
      else if (policy focal (excludedOf allIds s)).attendee_id ∈ rest then
        { s with
            unallocated := rest.erase (policy focal (excludedOf allIds s)).attendee_id,
            pairs := s.pairs ++ [(focal, (policy focal (excludedOf allIds s)).attendee_id)],
            calls := s.calls ++ [⟨focal, excludedOf allIds s,
              s.unallocated, s.pairs, s.unmatched⟩] }
      else
        { s with unallocated := rest, unmatched := s.unmatched ++ [focal],
                 calls := s.calls ++ [⟨focal, excludedOf allIds s,
                   s.unallocated, s.pairs, s.unmatched⟩] }) := by
  unfold orchStep
  rw [hu]

lemma callwf_props (allIds : List Int) (c : CallRec) (hnd : allIds.Nodup)
    (h : CallWf allIds c) :
    (∀ x, x ∈ c.excluded ↔ (x ∈ allIds ∧ x ∉ c.unallocAtCall))
    ∧ c.focal ∉ c.excluded
    ∧ (∀ x ∈ c.unallocAtCall, x ∉ c.excluded)
    ∧ (∀ x, x ∈ c.excluded ↔
        (x ∈ pairIds c.pairsAtCall ∨ x ∈ c.unmatchedAtCall)) := by
  obtain ⟨hex, hf, hperm⟩ := h
  have hmemiff : ∀ x : Int, x ∈ c.excluded ↔ (x ∈ allIds ∧ x ∉ c.unallocAtCall) := by
    intro x
    rw [hex, List.mem_filter]
    simp
  refine ⟨hmemiff, ?_, ?_, ?_⟩
  · intro hmem
    exact ((hmemiff c.focal).mp hmem).2 hf
  · intro x hx hmem
    exact ((hmemiff x).mp hmem).2 hx
  · have hnd2 : (pairIds c.pairsAtCall ++ c.unmatchedAtCall ++ c.unallocAtCall).Nodup :=
      hperm.nodup_iff.mpr hnd
    have hdisj :
        ∀ x ∈ pairIds c.pairsAtCall ++ c.unmatchedAtCall, x ∉ c.unallocAtCall :=
      fun x hx => List.disjoint_of_nodup_append hnd2 hx
    intro x
    rw [hmemiff x]
    constructor
    · rintro ⟨hall, hnu⟩
      have : x ∈ pairIds c.pairsAtCall ++ c.unmatchedAtCall ++ c.unallocAtCall :=
        hperm.mem_iff.mpr hall
      rcases List.mem_append.mp this with hl | hr
      · exact List.mem_append.mp hl
      · exact absurd hr hnu
    · intro hor
      have hl : x ∈ pairIds c.pairsAtCall ++ c.unmatchedAtCall :=
        List.mem_append.mpr hor
      refine ⟨hperm.mem_iff.mp (List.mem_append.mpr (Or.inl hl)), hdisj x hl⟩

/-- C1: for every completed orchestration run on duplicate-free attending
ids, the ids in the produced pairs together with the final unallocated
remainder are a permutation of the attending ids (no omission, no
duplication), no id occurs in two pairs or twice in one pair, and the
loop ends with at most one attendee still unallocated. -/
theorem match_pairs_partition (allIds : List Int)
    (policy : Int → List Int → MatchResult) (hnd : allIds.Nodup) :
    ((pairIds (match_pairs allIds policy).pairs
        ++ remainderOf (match_pairs allIds policy)).Perm allIds)
    ∧ (pairIds (match_pairs allIds policy).pairs
        ++ remainderOf (match_pairs allIds policy)).Nodup
    ∧ (pairIds (match_pairs allIds policy).pairs).Nodup
    ∧ (match_pairs allIds policy).unallocated.length ≤ 1 := by
  have hperm : (pairIds (match_pairs allIds policy).pairs
      ++ remainderOf (match_pairs allIds policy)).Perm allIds := by
    rw [remainderOf, ← List.append_assoc]
    exact (match_pairs_runinv allIds policy).1
  have hnd2 := hperm.nodup_iff.mpr hnd
  refine ⟨hperm, hnd2, hnd2.of_append_left, ?_⟩
  exact orchLoop_unallocated_le_one allIds policy allIds.length
    ⟨allIds, [], [], []⟩ (le_refl _)

/-- Witness for C1: four attendees, a policy pairing 1-3 and 2-4. -/
theorem match_pairs_partition_witness :
    ((pairIds (match_pairs [1, 2, 3, 4]
          (fun f _ => ⟨if f = 1 then 3 else if f = 2 then 4 else -1, "w", 1⟩)).pairs
        ++ remainderOf (match_pairs [1, 2, 3, 4]
          (fun f _ => ⟨if f = 1 then 3 else if f = 2 then 4 else -1, "w", 1⟩))).Perm
        [1, 2, 3, 4])
    ∧ (pairIds (match_pairs [1, 2, 3, 4]
          (fun f _ => ⟨if f = 1 then 3 else if f = 2 then 4 else -1, "w", 1⟩)).pairs
        ++ remainderOf (match_pairs [1, 2, 3, 4]
          (fun f _ => ⟨if f = 1 then 3 else if f = 2 then 4 else -1, "w", 1⟩))).Nodup
    ∧ (pairIds (match_pairs [1, 2, 3, 4]
          (fun f _ => ⟨if f = 1 then 3 else if f = 2 then 4 else -1, "w", 1⟩)).pairs).Nodup
    ∧ (match_pairs [1, 2, 3, 4]
          (fun f _ => ⟨if f = 1 then 3 else if f = 2 then 4 else -1, "w", 1⟩)).unallocated.length
        ≤ 1 :=
  match_pairs_partition [1, 2, 3, 4]
    (fun f _ => ⟨if f = 1 then 3 else if f = 2 then 4 else -1, "w", 1⟩) (by decide)

/-- C2 counterexample: in a run whose first focal attendee finds no match,
the second policy call's exclusion set contains that attendee although it
is committed to no pair — the exclusion set is not "exactly the attendees
already committed to a pair". -/
theorem exclusion_not_only_paired_cex :
    ((match_pairs [1, 2, 3] (fun _ _ => ⟨-1, "no match", 0⟩)).calls.map
        fun c => (c.focal, c.excluded, c.pairsAtCall))
      = [(1, [], []), (2, [1], [])]
    ∧ ∃ c ∈ (match_pairs [1, 2, 3] (fun _ _ => ⟨-1, "no match", 0⟩)).calls,
        (1 : Int) ∈ c.excluded ∧ (1 : Int) ∉ pairIds c.pairsAtCall := by
  constructor
  · decide
  · decide

/-- C2 (amended): for every policy call of a run on duplicate-free
attending ids, the exclusion set passed equals all attending ids minus the
unallocated set at call time; it never contains the focal attendee nor any
still-unallocated attendee; and it consists exactly of the attendees
already committed to a pair together with earlier focal attendees that
finished their round unmatched. -/
theorem call_exclusion_sets (allIds : List Int)
    (policy : Int → List Int → MatchResult) (hnd : allIds.Nodup) :
    ∀ c ∈ (match_pairs allIds policy).calls,
      (∀ x, x ∈ c.excluded ↔ (x ∈ allIds ∧ x ∉ c.unallocAtCall))
      ∧ c.focal ∉ c.excluded
      ∧ (∀ x ∈ c.unallocAtCall, x ∉ c.excluded)
      ∧ (∀ x, x ∈ c.excluded ↔
          (x ∈ pairIds c.pairsAtCall ∨ x ∈ c.unmatchedAtCall)) := by
  intro c hc
  exact callwf_props allIds c hnd ((match_pairs_runinv allIds policy).2 c hc)

/-- Witness for C2 (amended), on the run of the counterexample: the second
call's record has its focal attendee outside the exclusion set, and id 1
is excluded exactly because it is paired-or-unmatched (here: unmatched). -/
theorem call_exclusion_sets_witness :
    ((⟨2, [1], [2, 3], [], [1]⟩ : CallRec).focal
        ∉ (⟨2, [1], [2, 3], [], [1]⟩ : CallRec).excluded)
    ∧ ((1 : Int) ∈ (⟨2, [1], [2, 3], [], [1]⟩ : CallRec).excluded ↔
        ((1 : Int) ∈ pairIds (⟨2, [1], [2, 3], [], [1]⟩ : CallRec).pairsAtCall
          ∨ (1 : Int) ∈ (⟨2, [1], [2, 3], [], [1]⟩ : CallRec).unmatchedAtCall)) :=
  ⟨(call_exclusion_sets [1, 2, 3] (fun _ _ => ⟨-1, "no match", 0⟩) (by decide)
      ⟨2, [1], [2, 3], [], [1]⟩ (by decide)).2.1,
   (call_exclusion_sets [1, 2, 3] (fun _ _ => ⟨-1, "no match", 0⟩) (by decide)
      ⟨2, [1], [2, 3], [], [1]⟩ (by decide)).2.2.2 1⟩

/-- C6: when all 3 search attempts return zero candidates, the policy
invocation returns the sentinel no-match result (`attendee_id = -1`,
confidence `0`, exhausted-search rationale) after exactly 3 attempts, as a
normal value, and on a sentinel answer the orchestrator removes only the
focal attendee, keeps the pair list unchanged, and continues. -/
theorem exhausted_search_sentinel (env : Nat → List Candidate)
    (wants : Nat → Bool) (exclude : List Int) (hempty : ∀ k, env k = [])
    (allIds : List Int) (policy : Int → List Int → MatchResult)
    (s : OrchState) (focal : Int) (rest : List Int)
    (hu : s.unallocated = focal :: rest)
    (hp : (policy focal (excludedOf allIds s)).attendee_id = -1) :
    find_match env wants exclude
        = ⟨-1, "No suitable matches found after 3 search attempts", 0⟩
    ∧ attemptsUsed env wants = 3
    ∧ (orchStep allIds policy s).pairs = s.pairs
    ∧ (orchStep allIds policy s).unallocated = rest
    ∧ (orchStep allIds policy s).unmatched = s.unmatched ++ [focal] := by
  have hstep := orchStep_of_unalloc_cons allIds policy hu
  rw [if_pos hp] at hstep
  refine ⟨?_, ?_, ?_, ?_, ?_⟩
  · rw [find_match, policyRun_all_empty env wants hempty]
    rfl
  · rw [attemptsUsed, policyRun_all_empty env wants hempty]
  · rw [hstep]
  · rw [hstep]
  · rw [hstep]

/-- Witness for C6: an environment returning no candidates at all, and an
orchestration state with focal attendee 1 before attendee 2. -/
theorem exhausted_search_sentinel_witness :
    find_match (fun _ => []) (fun _ => true) []
        = ⟨-1, "No suitable matches found after 3 search attempts", 0⟩
    ∧ attemptsUsed (fun _ => []) (fun _ => true) = 3
    ∧ (orchStep [1, 2] (fun _ _ => ⟨-1, "n", 0⟩) ⟨[1, 2], [], [], []⟩).pairs
        = ([] : List (Int × Int))
    ∧ (orchStep [1, 2] (fun _ _ => ⟨-1, "n", 0⟩) ⟨[1, 2], [], [], []⟩).unallocated
        = [2]
    ∧ (orchStep [1, 2] (fun _ _ => ⟨-1, "n", 0⟩) ⟨[1, 2], [], [], []⟩).unmatched
        = [] ++ [1] :=
  exhausted_search_sentinel (fun _ => []) (fun _ => true) [] (fun _ => rfl)
    [1, 2] (fun _ _ => ⟨-1, "n", 0⟩) ⟨[1, 2], [], [], []⟩ 1 [2] rfl rfl

/-- C7 counterexample: with a found event, 2 attending attendees (the
precondition satisfied) and all collaborators healthy, a run in which the
policy matches nobody still reports failure ("No pairs could be created")
— a failure mode beyond the two the claim allows. -/
theorem run_no_pairs_failure_cex :
    (MatcherRunner_run true 1 2 [1, 2] (fun _ _ => ⟨-1, "n", 0⟩)).success = false
    ∧ (MatcherRunner_run true 1 2 [1, 2] (fun _ _ => ⟨-1, "n", 0⟩)).error
        = some "No pairs could be created"
    ∧ 2 ≤ ([1, 2] : List Int).length := by
  refine ⟨rfl, rfl, by decide⟩

/-- C7 (amended): the top-level run always returns a structured
`RunResult`; it reports failure exactly when the event is not found, when
fewer than 2 attendees attend, or when matching yields zero pairs, and on
success it reports the attendee count, pair count and unallocated
count. -/
theorem run_failure_modes (eventFound : Bool) (total_tables ppl_per_table : Nat)
    (attending : List Int) (policy : Int → List Int → MatchResult) :
    ((MatcherRunner_run eventFound total_tables ppl_per_table attending policy).success
          = false
        ↔ (eventFound = false ∨ attending.length < 2
            ∨ (match_pairs attending policy).pairs.length = 0))
    ∧ ((MatcherRunner_run eventFound total_tables ppl_per_table attending policy).error
          = none
        ↔ (MatcherRunner_run eventFound total_tables ppl_per_table attending policy).success
          = true)
    ∧ ((MatcherRunner_run eventFound total_tables ppl_per_table attending policy).success
          = true →
        (MatcherRunner_run eventFound total_tables ppl_per_table attending policy).attendees_count
            = attending.length
        ∧ (MatcherRunner_run eventFound total_tables ppl_per_table attending policy).pairs_created
            = (match_pairs attending policy).pairs.length
        ∧ (MatcherRunner_run eventFound total_tables ppl_per_table attending policy).attendees_unallocated
            = (remainderOf (match_pairs attending policy)).length) := by
  cases eventFound with
  | false => simp [MatcherRunner_run]
  | true =>
    by_cases h2 : attending.length < 2
    · simp [MatcherRunner_run, h2]
    · by_cases h0 : (match_pairs attending policy).pairs.length = 0
      · simp [MatcherRunner_run, h2, h0]
      · simp [MatcherRunner_run, h2, h0]

/-- Witness for C7 (amended): a successful concrete run with two attendees
paired by the policy. -/
theorem run_failure_modes_witness :
    ((MatcherRunner_run true 1 2 [1, 2] (fun _ _ => ⟨2, "w", 1⟩)).success = false
        ↔ ((true : Bool) = false ∨ ([1, 2] : List Int).length < 2
            ∨ (match_pairs [1, 2] (fun _ _ => ⟨2, "w", 1⟩)).pairs.length = 0))
    ∧ ((MatcherRunner_run true 1 2 [1, 2] (fun _ _ => ⟨2, "w", 1⟩)).attendees_count
          = ([1, 2] : List Int).length
        ∧ (MatcherRunner_run true 1 2 [1, 2] (fun _ _ => ⟨2, "w", 1⟩)).pairs_created
          = (match_pairs [1, 2] (fun _ _ => ⟨2, "w", 1⟩)).pairs.length
        ∧ (MatcherRunner_run true 1 2 [1, 2] (fun _ _ => ⟨2, "w", 1⟩)).attendees_unallocated
          = (remainderOf (match_pairs [1, 2] (fun _ _ => ⟨2, "w", 1⟩))).length) :=
  ⟨(run_failure_modes true 1 2 [1, 2] (fun _ _ => ⟨2, "w", 1⟩)).1,
   (run_failure_modes true 1 2 [1, 2] (fun _ _ => ⟨2, "w", 1⟩)).2.2 rfl⟩

/-- C8: if the policy answers with an identifier that is not in the
current unallocated set, the orchestrator rejects the match: the pair list
is unchanged, only the focal attendee leaves the unallocated set (joining
the unmatched remainder), and the conservation invariant is preserved. -/
theorem contract_violation_rejected (allIds : List Int)
    (policy : Int → List Int → MatchResult) (s : OrchState) (focal : Int)
    (rest : List Int) (hu : s.unallocated = focal :: rest)
    (hviol : (policy focal (excludedOf allIds s)).attendee_id ∉ s.unallocated) :
    (orchStep allIds policy s).pairs = s.pairs
    ∧ (orchStep allIds policy s).unallocated = rest
    ∧ (orchStep allIds policy s).unmatched = s.unmatched ++ [focal]
    ∧ (Conserves allIds s → Conserves allIds (orchStep allIds policy s)) := by
  have hnr : (policy focal (excludedOf allIds s)).attendee_id ∉ rest := by
    intro hmem
    exact hviol (by rw [hu]; exact List.mem_cons_of_mem _ hmem)
  have hstep := orchStep_of_unalloc_cons allIds policy hu
  by_cases h1 : (policy focal (excludedOf allIds s)).attendee_id = -1
  · rw [if_pos h1] at hstep
    exact ⟨by rw [hstep], by rw [hstep], by rw [hstep],
      fun h => orchStep_conserves allIds policy s h⟩
  · rw [if_neg h1, if_neg hnr] at hstep
    exact ⟨by rw [hstep], by rw [hstep], by rw [hstep],
      fun h => orchStep_conserves allIds policy s h⟩

/-- Witness for C8: the policy returns id 99, which is not unallocated;
the orchestrator unmatches focal attendee 1 and keeps no pair. -/
theorem contract_violation_rejected_witness :
    (orchStep [1, 2] (fun _ _ => ⟨99, "bad", 1⟩) ⟨[1, 2], [], [], []⟩).pairs
        = ([] : List (Int × Int))
    ∧ (orchStep [1, 2] (fun _ _ => ⟨99, "bad", 1⟩) ⟨[1, 2], [], [], []⟩).unallocated
        = [2]
    ∧ (orchStep [1, 2] (fun _ _ => ⟨99, "bad", 1⟩) ⟨[1, 2], [], [], []⟩).unmatched
        = [] ++ [1]
    ∧ (Conserves [1, 2] ⟨[1, 2], [], [], []⟩ →
        Conserves [1, 2] (orchStep [1, 2] (fun _ _ => ⟨99, "bad", 1⟩)
          ⟨[1, 2], [], [], []⟩)) :=
  contract_violation_rejected [1, 2] (fun _ _ => ⟨99, "bad", 1⟩)
    ⟨[1, 2], [], [], []⟩ 1 [2] rfl (by decide)

/-- C3: every Match Decision Policy invocation issues at most 3 search
attempts — for any candidate environment, any sequence of requests by the
decision-making component (`wants`), and any fuel, so the cap comes from
the `should_continue` guard (checked before honoring a request), never
from the recursion bound — and the retry loop stops at the first attempt
that returns at least one candidate. -/
theorem policy_three_attempt_cap (env : Nat → List Candidate)
    (wants : Nat → Bool) :
    attemptsUsed env wants ≤ 3
    ∧ (∀ fuel, (policyLoop env wants fuel 0 []).1 ≤ 3)
    ∧ (∀ k, k < 3 → (∀ j, j < k → env j = []) → env k ≠ [] →
        attemptsUsed env wants = k + 1) := by
  refine ⟨policy_attempts_le_three env wants 4, policy_attempts_le_three env wants,
    ?_⟩
  intro k hk hbefore hne
  rw [attemptsUsed, policyRun_first_nonempty env wants k hk hbefore hne]

/-- Witness for C3: an environment whose second attempt returns one
candidate, with the decision-making component always asking to continue:
the run still uses exactly 2 attempts. -/
theorem policy_three_attempt_cap_witness :
    attemptsUsed (fun k => if k = 1 then [⟨7, "w", 9/10⟩] else [])
        (fun _ => true) ≤ 3
    ∧ attemptsUsed (fun k => if k = 1 then [⟨7, "w", 9/10⟩] else [])
        (fun _ => true) = 1 + 1 :=
  ⟨(policy_three_attempt_cap _ _).1,
   (policy_three_attempt_cap (fun k => if k = 1 then [⟨7, "w", 9/10⟩] else [])
      (fun _ => true)).2.2 1 (by omega)
      (by intro j hj; interval_cases j; rfl)
      (by simp)⟩

/-- C4: the Seat Allocator places the attendee at 0-based flattened index
`i` (pairs flattened in orchestration order, members adjacent, remainder
appended) at `table_no = i / capacity` and `seat_no = i % capacity`. -/
theorem seat_placement_formula (pairs : List (Int × Int))
    (remainder : List Int) (total_tables ppl_per_table : Nat) (i : Nat)
    (h : i < min (pairIds pairs ++ remainder).length
          (total_tables * ppl_per_table)) :
    (allocate_seats pairs remainder total_tables ppl_per_table).assignments.get? i
      = ((pairIds pairs ++ remainder).get? i).map
          fun a => ⟨a, i / ppl_per_table, i % ppl_per_table⟩ := by
  have hlen : i < ((pairIds pairs ++ remainder).take
      (total_tables * ppl_per_table)).length := by
    rw [List.length_take]
    omega
  unfold allocate_seats
  simp only []
  rw [assignFrom_get? ppl_per_table _ 0 i hlen]
  rw [List.get?_eq_getElem?, List.get?_eq_getElem?,
    List.getElem?_take_of_lt (by omega)]
  simp

/-- Witness for C4: capacity 3, flattened index 4 — table 1, seat 1 (the
spec's own example). -/
theorem seat_placement_formula_witness :
    (allocate_seats [(1, 2), (3, 4)] [5, 6] 2 3).assignments.get? 4
      = some ⟨5, 1, 1⟩ := by
  rw [seat_placement_formula [(1, 2), (3, 4)] [5, 6] 2 3 4 (by decide)]
  rfl

/-- C5: when the flattened sequence exceeds `tables × capacity` seats, the
allocator places exactly the first `tables × capacity` attendees in order,
reports the overflow flag and the specific unplaced identifiers, and
still returns a `SeatResult` (no exception path exists). -/
theorem capacity_overflow_nonfatal (pairs : List (Int × Int))
    (remainder : List Int) (total_tables ppl_per_table : Nat)
    (h : total_tables * ppl_per_table < (pairIds pairs ++ remainder).length) :
    (allocate_seats pairs remainder total_tables ppl_per_table).assignments.length
        = total_tables * ppl_per_table
    ∧ (allocate_seats pairs remainder total_tables ppl_per_table).assignments.map
          SeatAssignment.attendee_id
        = (pairIds pairs ++ remainder).take (total_tables * ppl_per_table)
    ∧ (allocate_seats pairs remainder total_tables ppl_per_table).unplaced
        = (pairIds pairs ++ remainder).drop (total_tables * ppl_per_table)
    ∧ (allocate_seats pairs remainder total_tables ppl_per_table).unplaced.length
        = (pairIds pairs ++ remainder).length - total_tables * ppl_per_table
    ∧ (allocate_seats pairs remainder total_tables ppl_per_table).overflow = true := by
  refine ⟨?_, ?_, rfl, ?_, ?_⟩
  · rw [allocate_seats]
    simp only []
    rw [assignFrom_length, List.length_take]
    omega
  · rw [allocate_seats]
    simp only []
    rw [assignFrom_map_id]
  · rw [allocate_seats]
    simp only []
    rw [List.length_drop]
  · rw [allocate_seats]
    simp only [decide_eq_true_eq]
    exact h

/-- Witness for C5: 2 tables of capacity 3 with 8 attendees — exactly 6
placed in order, the 2 overflow ids reported unplaced (the spec's own
example). -/
theorem capacity_overflow_nonfatal_witness :
    (allocate_seats [(1, 2), (3, 4), (5, 6), (7, 8)] [] 2 3).assignments.length
        = 2 * 3
    ∧ (allocate_seats [(1, 2), (3, 4), (5, 6), (7, 8)] [] 2 3).assignments.map
          SeatAssignment.attendee_id
        = (pairIds [(1, 2), (3, 4), (5, 6), (7, 8)] ++ []).take (2 * 3)
    ∧ (allocate_seats [(1, 2), (3, 4), (5, 6), (7, 8)] [] 2 3).unplaced
        = (pairIds [(1, 2), (3, 4), (5, 6), (7, 8)] ++ []).drop (2 * 3)
    ∧ (allocate_seats [(1, 2), (3, 4), (5, 6), (7, 8)] [] 2 3).unplaced.length
        = (pairIds [(1, 2), (3, 4), (5, 6), (7, 8)] ++ []).length - 2 * 3
    ∧ (allocate_seats [(1, 2), (3, 4), (5, 6), (7, 8)] [] 2 3).overflow = true :=
  capacity_overflow_nonfatal [(1, 2), (3, 4), (5, 6), (7, 8)] [] 2 3 (by decide)

end Engine


namespace Frontend

lemma flatten_filter_nonempty {α : Type} (l : List (MockTable α)) :
    ((l.filter fun t => !t.attendees.isEmpty).map MockTable.attendees).flatten
      = (l.map MockTable.attendees).flatten := by
  induction l with
  | nil => rfl
  | cons t rest ih =>
    by_cases h : t.attendees.isEmpty
    · have hnil : t.attendees = [] := by
        cases hl : t.attendees with
        | nil => rfl
        | cons a as => rw [hl] at h; simp at h
      simp [List.filter_cons, h, ih, hnil]
    · have h2 : t.attendees.isEmpty = false := by
        cases hb : t.attendees.isEmpty with
        | false => rfl
        | true => exact absurd hb h
      simp [List.filter_cons, h2, ih]

lemma map_range_chunks_flatten {α : Type} (xs : List α) (S : Nat) :
    ∀ T : Nat, ((List.range T).map fun i => (xs.drop (i * S)).take S).flatten
      = xs.take (T * S) := by
  intro T
  induction T with
  | zero => simp
  | succ T ih =>
    rw [List.range_succ, List.map_append, List.flatten_append]
    simp only [List.map_cons, List.map_nil, List.flatten_cons, List.flatten_nil]
    rw [ih, Nat.succ_mul, List.take_add]
    simp

lemma interpolateColor_ne_lightgray (c1 c2 : Int × Int × Int) (f : Rat) :
    interpolateColor c1 c2 f ≠ CssColor.lightgray := by
  unfold interpolateColor
  split_ifs <;> simp

lemma clamp_idem (x : Rat) :
    min 1 (max 0 (min 1 (max 0 x))) = min 1 (max 0 x) := by
  have h1 : (0 : Rat) ≤ min 1 (max 0 x) :=
    le_min (by norm_num) (le_max_left 0 x)
  have h2 : min 1 (max 0 x) ≤ 1 := min_le_left _ _
  rw [max_eq_right h1, min_eq_right h2]

/-- C9: in the mock seating-plan generation, the table reported with id
`k + 1` carries exactly the slice of the input list from index `k*S` of
length at most `S`, in order; every kept table is non-empty, tables with
no attendees are removed, and the concatenation of all tables is exactly
the first `T*S` attendees — anyone beyond index `T*S` is silently
omitted. -/
theorem handleGeneratePlan_spec {α : Type} (T S : Nat) (xs : List α) :
    (∀ t ∈ handleGeneratePlan T S xs,
        1 ≤ t.id ∧ t.id ≤ T ∧ t.capacity = S
        ∧ t.attendees = (xs.drop ((t.id - 1) * S)).take S
        ∧ t.attendees ≠ [])
    ∧ (∀ k, k < T → (xs.drop (k * S)).take S ≠ [] →
        MockTable.mk (k + 1) S ((xs.drop (k * S)).take S)
          ∈ handleGeneratePlan T S xs)
    ∧ ((handleGeneratePlan T S xs).map MockTable.attendees).flatten
        = xs.take (T * S) := by
  refine ⟨?_, ?_, ?_⟩
  · intro t ht
    unfold handleGeneratePlan at ht
    rw [List.mem_filter] at ht
    obtain ⟨hmem, hpred⟩ := ht
    rw [List.mem_map] at hmem
    obtain ⟨i, hi, heq⟩ := hmem
    have hiT : i < T := List.mem_range.mp hi
    subst heq
    refine ⟨?_, ?_, rfl, ?_, ?_⟩
    · show 1 ≤ i + 1
      omega
    · show i + 1 ≤ T
      omega
    · show (xs.drop (i * S)).take S = (xs.drop ((i + 1 - 1) * S)).take S
      simp
    · show (xs.drop (i * S)).take S ≠ []
      intro hnil
      rw [show (MockTable.mk (i + 1) S ((xs.drop (i * S)).take S)).attendees
          = (xs.drop (i * S)).take S from rfl, hnil] at hpred
      simp at hpred
  · intro k hk hne
    unfold handleGeneratePlan
    rw [List.mem_filter]
    refine ⟨List.mem_map.mpr ⟨k, List.mem_range.mpr hk, rfl⟩, ?_⟩
    cases hl : (xs.drop (k * S)).take S with
    | nil => exact absurd hl hne
    | cons a as => simp [hl]
  · unfold handleGeneratePlan
    rw [flatten_filter_nonempty, List.map_map]
    exact map_range_chunks_flatten xs S T

/-- Witness for C9: 2 tables of size 3 on 8 attendees — table 1 holds the
first three, and the plan as a whole holds exactly the first six. -/
theorem handleGeneratePlan_spec_witness :
    MockTable.mk (0 + 1) 3
        ((([10, 20, 30, 40, 50, 60, 70, 80] : List Nat).drop (0 * 3)).take 3)
      ∈ handleGeneratePlan 2 3 ([10, 20, 30, 40, 50, 60, 70, 80] : List Nat)
    ∧ ((handleGeneratePlan 2 3
          ([10, 20, 30, 40, 50, 60, 70, 80] : List Nat)).map
        MockTable.attendees).flatten
      = ([10, 20, 30, 40, 50, 60, 70, 80] : List Nat).take (2 * 3) :=
  ⟨(handleGeneratePlan_spec 2 3 [10, 20, 30, 40, 50, 60, 70, 80]).2.1 0
      (by omega) (by decide),
   (handleGeneratePlan_spec 2 3 [10, 20, 30, 40, 50, 60, 70, 80]).2.2⟩

/-- C10: the visualizer's per-attendee color computation is total:
`getCurrentViewValue` returns the stored value exactly when the view name
occurs in `settings.views` and the stored entry at that index exists and
is non-zero (truthy), and the neutral `0.5` otherwise; and
`getDynamicBackgroundColor` depends on the view value only through its
clamp to `[0,1]` and returns the `lightgray` fallback exactly when the
view has no palette entry. -/
theorem visualizer_color_total (a : Attendee) (v : String)
    (s : EventSettings) (x : Rat) :
    (∀ i y, s.views.findIdx? (fun w => w == v) = some i →
        a.views.get? i = some y → y ≠ 0 → getCurrentViewValue a v s = y)
    ∧ (s.views.findIdx? (fun w => w == v) = none →
        getCurrentViewValue a v s = 0.5)
    ∧ (∀ i, s.views.findIdx? (fun w => w == v) = some i →
        (a.views.get? i = none ∨ a.views.get? i = some 0) →
        getCurrentViewValue a v s = 0.5)
    ∧ getDynamicBackgroundColor x v s
        = getDynamicBackgroundColor (min 1 (max 0 x)) v s
    ∧ ((0 : Rat) ≤ min 1 (max 0 x) ∧ min 1 (max 0 x) ≤ 1)
    ∧ (getDynamicBackgroundColor x v s = CssColor.lightgray ↔
        (s.views.findIdx? (fun w => w == v) = none
          ∨ ∃ i, s.views.findIdx? (fun w => w == v) = some i
              ∧ TOPIC_COLOR_PALETTE.get? i = none)) := by
  refine ⟨?_, ?_, ?_, ?_, ?_, ?_⟩
  · intro i y hf hg hy
    unfold getCurrentViewValue
    rw [hf]
    simp only []
    rw [hg]
    simp only []
    rw [if_neg hy]
  · intro hf
    unfold getCurrentViewValue
    rw [hf]
  · intro i hf hor
    unfold getCurrentViewValue
    rw [hf]
    simp only []
    rcases hor with h | h
    · rw [h]
    · rw [h]
      simp
  · unfold getDynamicBackgroundColor
    rw [clamp_idem]
  · exact ⟨le_min (by norm_num) (le_max_left 0 x), min_le_left _ _⟩
  · unfold getDynamicBackgroundColor
    cases hf : s.views.findIdx? (fun w => w == v) with
    | none => simp
    | some i =>
      simp only []
      cases hp : TOPIC_COLOR_PALETTE.get? i with
      | none =>
        simp only []
        constructor
        · intro _
          exact Or.inr ⟨i, rfl, hp⟩
        · intro _
          trivial
      | some colors =>
        simp only []
        constructor
        · intro h
          exact absurd h (interpolateColor_ne_lightgray _ _ _)
        · rintro (hno | ⟨i2, hi2, hpn⟩)
          · exact absurd hno (by simp)
          · rw [Option.some.injEq] at hi2
            rw [← hi2, hp] at hpn
            exact Option.noConfusion hpn

/-- Witness for C10: an attendee with stored value `1/4` on view
"politics" (palette index 0) gets that value back, and an out-of-range
view value `2` is clamped. -/
theorem visualizer_color_total_witness :
    getCurrentViewValue ⟨[1/4, 0]⟩ "politics" ⟨["politics", "age"]⟩ = 1/4
    ∧ getDynamicBackgroundColor 2 "politics" ⟨["politics", "age"]⟩
        = getDynamicBackgroundColor (min 1 (max 0 2)) "politics"
            ⟨["politics", "age"]⟩ :=
  ⟨(visualizer_color_total ⟨[1/4, 0]⟩ "politics" ⟨["politics", "age"]⟩ 2).1
      0 (1/4) rfl rfl (by norm_num),
   (visualizer_color_total ⟨[1/4, 0]⟩ "politics" ⟨["politics", "age"]⟩ 2).2.2.2.1⟩

end Frontend
